import Mathlib

/-!
Verification of the minilog-zero console logger core (src: the single
implementation module containing COLORS, LEVELS, ICONS, LEVEL_COLORS,
safeStringify, formatArgs, createLogger and the logger method record).

Embedding conventions:
* JavaScript runtime values passed to the variadic emit operations are
  modelled by the inductive `JSVal`.  Plain objects and arrays — the only
  values whose identity the source observes (via the WeakSet circular
  guard and JSON.stringify's internal cycle check) — live in an explicit
  `Heap` and are referenced by `JSVal.ref`; all other values are tree
  nodes.  Errors, Maps, Sets, RegExps and Dates are special-cased by the
  source before generic serialization, and the source never compares
  their identities in a way a claim depends on, so they carry no heap id.
* Severity levels are strings, because the source stores whatever value
  it is given in `currentLevel` (construction performs no validation) and
  `shouldLog` looks the stored string up in the LEVELS table at each call.
* JavaScript exceptions are modelled with `Except`: `Except.error ()`
  marks a thrown serialization error, `Except.error msg` the TypeError
  thrown by setLevel.
* The recursive serializers take a fuel parameter so that they are
  structurally recursive and computable by `rfl`; fuel is consumed on
  every recursive step, and every concrete statement below supplies
  enough fuel that exhaustion (modelled as a thrown error, which the
  source's try/catch would turn into the fallback) is never reached.
-/

namespace Minilog

set_option autoImplicit false

/-- ANSI color codes (source constant COLORS). -/
def COLORS_reset : String := "\x1b[0m"

def COLORS_gray : String := "\x1b[90m"

def COLORS_cyan : String := "\x1b[36m"

def COLORS_yellow : String := "\x1b[33m"

def COLORS_red : String := "\x1b[31m"

def COLORS_green : String := "\x1b[32m"

/-- Log level priorities (source constant LEVELS), in the object's
insertion order. -/
def LEVELS : List (String × Nat) :=
  [("debug", 0), ("info", 1), ("warn", 2), ("error", 3), ("success", 3)]

/-- Property access LEVELS[l]: the priority number when `l` is an own key,
and `none` (JavaScript `undefined`) otherwise.  For an inherited key such
as "toString" the real access yields a function, and a `>=` comparison
against a function is false either way, exactly as the `none` branches
below make it. -/
def levelPriority (l : String) : Option Nat := LEVELS.lookup l

/-- Object.keys(LEVELS): the five own enumerable keys in insertion order. -/
def levelNames : List String := LEVELS.map Prod.fst

/-- Property names inherited by every plain object from Object.prototype.
The source's setLevel guard uses the JavaScript `in` operator, which
consults the prototype chain, so these names pass the guard even though
they are not own keys of LEVELS. -/
def objectProtoKeys : List String :=
  ["constructor", "hasOwnProperty", "isPrototypeOf", "propertyIsEnumerable",
   "toLocaleString", "toString", "valueOf", "__defineGetter__",
   "__defineSetter__", "__lookupGetter__", "__lookupSetter__", "__proto__"]

/-- The JavaScript expression `key in LEVELS`: true for own keys and for
keys inherited from Object.prototype. -/
def inLEVELS (key : String) : Bool :=
  levelNames.contains key || objectProtoKeys.contains key

/-- Emoji icons for each level (source constant ICONS).  An access with a
key outside the table yields `undefined`, which Array.prototype.join
renders as the text "undefined"; that branch is unreachable because the
emit operations only pass the five level names. -/
def ICONS (level : String) : String :=
  if level = "debug" then "🔍"
  else if level = "info" then "ℹ️"
  else if level = "warn" then "⚠️"
  else if level = "error" then "❌"
  else if level = "success" then "✅"
  else "undefined"

/-- Color mapping for each level (source constant LEVEL_COLORS). -/
def LEVEL_COLORS (level : String) : String :=
  if level = "debug" then COLORS_gray
  else if level = "info" then COLORS_cyan
  else if level = "warn" then COLORS_yellow
  else if level = "error" then COLORS_red
  else if level = "success" then COLORS_green
  else "undefined"

/-- String.prototype.toUpperCase restricted to the ASCII level names. -/
def toUpperCase (s : String) : String := String.mk (s.data.map Char.toUpper)

/-- A JavaScript runtime value as seen by the logger.  Plain objects and
arrays are heap references (`ref`); `exotic` stands for an object whose
serialization throws inside JSON.stringify (for example a value with a
throwing toJSON method), carrying its `String(value)` text. -/
inductive JSVal where
  | null
  | undef
  | str (s : String)
  | num (n : Int)
  | bool (b : Bool)
  | bigint (n : Int)
  | err (name message : String) (stackTrace : Option String)
      (props : List (String × JSVal))
  | jsmap (entries : List (String × JSVal))
  | jsset (elems : List JSVal)
  | regexp (source : String)
  | date (iso : String)
  | ref (id : Nat)
  | exotic (text : String)

/-- The stored shape of a heap object: a plain object's own enumerable
fields in insertion order, or an array's elements. -/
inductive ObjBody where
  | obj (fields : List (String × JSVal))
  | arr (elems : List JSVal)

/-- The object heap: identities of plain objects and arrays. -/
abbrev Heap := List (Nat × ObjBody)

/-- JSON string escaping for one character. -/
def jsonEscapeChar (c : Char) : String :=
  if c = '"' then "\\\""
  else if c = '\\' then "\\\\"
  else if c = '\n' then "\\n"
  else if c = '\t' then "\\t"
  else if c = '\r' then "\\r"
  else String.singleton c

/-- JSON string quoting, as JSON.stringify renders a string value. -/
def jsonQuote (s : String) : String :=
  "\"" ++ String.join (s.data.map jsonEscapeChar) ++ "\""

/-- Indentation produced by JSON.stringify with a 2-space indent at the
given nesting depth. -/
def pad (depth : Nat) : String := String.mk (List.replicate (2 * depth) ' ')

/-- Assembles a pretty-printed JSON object from serialized entries
(entries whose value is `none` — JavaScript `undefined` — are omitted,
as JSON.stringify omits them). -/
def renderObjText (depth : Nat) (entries : List (String × Option String)) : String :=
  let kept := entries.filterMap (fun kv =>
    match kv.2 with
    | some s => some (jsonQuote kv.1 ++ ": " ++ s)
    | none => none)
  match kept with
  | [] => "\x7b\x7d"
  | _ =>
    "\x7b\n" ++ String.intercalate ",\n" (kept.map (fun e => pad (depth + 1) ++ e))
      ++ "\n" ++ pad depth ++ "\x7d"

/-- Assembles a pretty-printed JSON array (an element serializing to
`none` is rendered as null, as JSON.stringify does). -/
def renderArrText (depth : Nat) (entries : List (String × Option String)) : String :=
  match entries with
  | [] => "[]"
  | _ =>
    "[\n" ++ String.intercalate ",\n"
        (entries.map (fun kv => pad (depth + 1) ++ kv.2.getD "null"))
      ++ "\n" ++ pad depth ++ "]"

mutual

/-- JSON.stringify's per-value serialization (ECMA-262
SerializeJSONProperty) as invoked by the source: first the toJSON step
(Dates render as their ISO string), then — when `rep` is true — the
source's replacer (BigInt to decimal-plus-"n" text; the WeakSet `seen`
guard over plain object references, yielding the "[Circular]" marker on
a repeat), then serialization of the result.  `seen` is threaded through
the whole call in visit order, mirroring the mutated WeakSet; `stack`
is JSON.stringify's internal ancestor list, whose cycle check throws
when no replacer intercepts the repeat first.  Without the replacer
(`rep` false) a BigInt makes JSON.stringify throw, modelled as
`Except.error ()`.  Returns `none` for values JSON.stringify maps to
undefined.  Fuel is consumed at every step. -/
def serVal (heap : Heap) : Nat → Bool → List Nat → List Nat → Nat → JSVal →
    (Except Unit (Option String)) × List Nat
  | 0, _, seen, _, _, _ => ((Except.error ()), seen)
  | fuel+1, rep, seen, stack, depth, v =>
    let v1 : JSVal := match v with | .date iso => .str iso | x => x
    match v1 with
    | .undef => ((Except.ok none), seen)
    | .null => ((Except.ok (some "null")), seen)
    | .str s => ((Except.ok (some (jsonQuote s))), seen)
    | .num n => ((Except.ok (some (toString n))), seen)
    | .bool b => ((Except.ok (some (if b then "true" else "false"))), seen)
    | .bigint n =>
      if rep then ((Except.ok (some (jsonQuote (toString n ++ "n")))), seen)
      else ((Except.error ()), seen)
    | .date iso => ((Except.ok (some (jsonQuote iso))), seen)
    | .regexp _ => ((Except.ok (some "\x7b\x7d")), seen)
    | .jsmap _ => ((Except.ok (some "\x7b\x7d")), seen)
    | .jsset _ => ((Except.ok (some "\x7b\x7d")), seen)
    | .exotic _ => ((Except.error ()), seen)
    | .err _ _ _ props =>
      match serItems heap fuel rep seen stack (depth + 1) props with
      | ((Except.error e), s) => ((Except.error e), s)
      | ((Except.ok entries), s) => ((Except.ok (some (renderObjText depth entries))), s)
    | .ref id =>
      if rep && seen.contains id then
        ((Except.ok (some (jsonQuote "[Circular]"))), seen)
      else
        let seen1 := if rep then id :: seen else seen
        if stack.contains id then ((Except.error ()), seen1)
        else
          match heap.lookup id with
          | none => ((Except.ok (some "null")), seen1)
          | some (.obj fields) =>
            match serItems heap fuel rep seen1 (id :: stack) (depth + 1) fields with
            | ((Except.error e), s) => ((Except.error e), s)
            | ((Except.ok entries), s) =>
              ((Except.ok (some (renderObjText depth entries))), s)
          | some (.arr elems) =>
            match serItems heap fuel rep seen1 (id :: stack) (depth + 1)
                (elems.map (fun e => ("", e))) with
            | ((Except.error e), s) => ((Except.error e), s)
            | ((Except.ok entries), s) =>
              ((Except.ok (some (renderArrText depth entries))), s)

/-- Serializes the fields of one object (or, with ignored keys, the
elements of one array) left to right, threading the WeakSet state and
propagating the first thrown error, as JSON.stringify does. -/
def serItems (heap : Heap) : Nat → Bool → List Nat → List Nat → Nat →
    List (String × JSVal) → (Except Unit (List (String × Option String))) × List Nat
  | 0, _, seen, _, _, _ => ((Except.error ()), seen)
  | _+1, _, seen, _, _, [] => ((Except.ok []), seen)
  | fuel+1, rep, seen, stack, depth, (k, v) :: rest =>
    match serVal heap fuel rep seen stack depth v with
    | ((Except.error e), s) => ((Except.error e), s)
    | ((Except.ok r), s) =>
      match serItems heap fuel rep s stack depth rest with
      | ((Except.error e), s2) => ((Except.error e), s2)
      | ((Except.ok rs), s2) => ((Except.ok ((k, r) :: rs)), s2)

end

mutual

/-- The JavaScript String(value) conversion, reached by the source only
through the catch fallback.  Arrays join their elements with commas
(null and undefined joining as empty text). -/
def strConv (heap : Heap) : Nat → JSVal → String
  | _, .null => "null"
  | _, .undef => "undefined"
  | _, .str s => s
  | _, .num n => toString n
  | _, .bool b => if b then "true" else "false"
  | _, .bigint n => toString n ++ "n"
  | _, .date iso => iso
  | _, .regexp source => source
  | _, .err name message _ _ => name ++ ": " ++ message
  | _, .jsmap _ => "[object Map]"
  | _, .jsset _ => "[object Set]"
  | _, .exotic text => text
  | 0, .ref id =>
    match heap.lookup id with
    | some (.obj _) => "[object Object]"
    | some (.arr _) => ""
    | none => "undefined"
  | fuel+1, .ref id =>
    match heap.lookup id with
    | some (.obj _) => "[object Object]"
    | some (.arr elems) => String.intercalate "," (strConvList heap fuel elems)
    | none => "undefined"

/-- Element conversions for Array.prototype.join. -/
def strConvList (heap : Heap) : Nat → List JSVal → List String
  | _, [] => []
  | 0, _ :: _ => []
  | fuel+1, a :: rest =>
    (match a with
     | .null => ""
     | .undef => ""
     | v => strConv heap fuel v) :: strConvList heap fuel rest

end

/-- The source function safeStringify: null and undefined literally;
Error objects as a pretty-printed JSON object of name, message, optional
stack and every own enumerable custom property, built before — and
serialized outside — the try/catch; Map and Set with a size tag and a
pretty-printed view, also outside the try/catch; RegExp via toString;
Date via toISOString; any other object through JSON.stringify with the
BigInt/circular replacer inside try/catch, falling back to String(value)
on a throw; top-level BigInt as decimal digits plus "n"; every other
primitive via String(value). -/
def safeStringify (heap : Heap) (fuel : Nat) (value : JSVal) : Except Unit String :=
  match value with
  | .null => Except.ok "null"
  | .undef => Except.ok "undefined"
  | .err name message stackTrace props =>
    let errorObj : List (String × JSVal) :=
      [("name", JSVal.str name), ("message", JSVal.str message)]
        ++ (match stackTrace with
            | some s => [("stack", JSVal.str s)]
            | none => [])
        ++ props
    match serItems heap fuel false [] [] 1 errorObj with
    | ((Except.error e), _) => Except.error e
    | ((Except.ok entries), _) => Except.ok (renderObjText 0 entries)
  | .jsmap entries =>
    match serItems heap fuel false [] [] 1 entries with
    | ((Except.error e), _) => Except.error e
    | ((Except.ok es), _) =>
      Except.ok ("Map(" ++ toString entries.length ++ ") " ++ renderObjText 0 es)
  | .jsset elems =>
    match serItems heap fuel false [] [] 1 (elems.map (fun e => ("", e))) with
    | ((Except.error e), _) => Except.error e
    | ((Except.ok es), _) =>
      Except.ok ("Set(" ++ toString elems.length ++ ") " ++ renderArrText 0 es)
  | .regexp source => Except.ok source
  | .date iso => Except.ok iso
  | .ref id =>
    match serVal heap fuel true [] [] 0 (.ref id) with
    | ((Except.ok (some s)), _) => Except.ok s
    | ((Except.ok none), _) => Except.ok "undefined"
    | ((Except.error _), _) => Except.ok (strConv heap fuel (.ref id))
  | .exotic text =>
    match serVal heap fuel true [] [] 0 (.exotic text) with
    | ((Except.ok (some s)), _) => Except.ok s
    | ((Except.ok none), _) => Except.ok "undefined"
    | ((Except.error _), _) => Except.ok (strConv heap fuel (.exotic text))
  | .bigint n => Except.ok (toString n ++ "n")
  | .str s => Except.ok s
  | .num n => Except.ok (toString n)
  | .bool b => Except.ok (if b then "true" else "false")

/-- The per-argument step of formatArgs: a string argument passes through
unchanged, every other argument goes through safeStringify. -/
def formatArg (heap : Heap) (fuel : Nat) (arg : JSVal) : Except Unit String :=
  match arg with
  | .str s => Except.ok s
  | v => safeStringify heap fuel v

/-- Converts the argument list left to right, each argument with a fresh
serialization (safeStringify allocates a new WeakSet per call), and
propagates the first thrown error. -/
def formatArgsList (heap : Heap) (fuel : Nat) : List JSVal → Except Unit (List String)
  | [] => Except.ok []
  | a :: rest =>
    match formatArg heap fuel a with
    | Except.error e => Except.error e
    | Except.ok s =>
      match formatArgsList heap fuel rest with
      | Except.error e => Except.error e
      | Except.ok ss => Except.ok (s :: ss)

/-- The source function formatArgs: per-argument conversion joined with a
single space. -/
def formatArgs (heap : Heap) (fuel : Nat) (args : List JSVal) : Except Unit String :=
  match formatArgsList heap fuel args with
  | Except.error e => Except.error e
  | Except.ok ss => Except.ok (String.intercalate " " ss)

/-- The state of one logger instance: the closure variables of
createLogger.  `currentLevel` is the only field the source ever assigns
after construction; the other three are `const`. -/
structure Logger where
  currentLevel : String
  prefix_ : String
  showTimestamp : Bool
  showIcons : Bool
deriving Repr, DecidableEq

/-- The LoggerOptions record; a missing field is `none`. -/
structure LoggerOptions where
  prefix_ : Option String := none
  timestamp : Option Bool := none
  level : Option String := none
  icons : Option Bool := none
deriving Repr, DecidableEq

/-- The source factory createLogger: unset fields take the defaults
(level "debug", empty prefix, no timestamp, icons on); a supplied level
is stored verbatim with no validation. -/
def createLogger (options : LoggerOptions) : Logger :=
  { currentLevel := options.level.getD "debug"
  , prefix_ := options.prefix_.getD ""
  , showTimestamp := options.timestamp.getD false
  , showIcons := options.icons.getD true }

/-- The module's default exported logger instance. -/
def defaultLogger : Logger := createLogger {}

/-- The source predicate shouldLog: LEVELS[level] >= LEVELS[currentLevel].
When either lookup misses (an unrecognized stored level) the JavaScript
comparison involves undefined and is false. -/
def shouldLog (st : Logger) (level : String) : Bool :=
  match levelPriority level, levelPriority st.currentLevel with
  | some a, some b => a ≥ b
  | _, _ => false

/-- The console method an output line is written with. -/
inductive Dest where
  | consoleLog
  | consoleWarn
  | consoleError
deriving Repr, DecidableEq

/-- The process stream each console method writes to (Node.js console
semantics: console.error and console.warn write to standard error,
console.log to standard output). -/
inductive StdStream where
  | out
  | err
deriving Repr, DecidableEq

/-- Stream routing of the console methods. -/
def destStream : Dest → StdStream
  | .consoleLog => .out
  | .consoleWarn => .err
  | .consoleError => .err

/-- The source's output switch: error via console.error, warn via
console.warn, every other level via console.log. -/
def destOf (level : String) : Dest :=
  if level = "error" then .consoleError
  else if level = "warn" then .consoleWarn
  else .consoleLog

/-- The source function log: returns without any effect when shouldLog
fails; otherwise pushes the icon (when showIcons), the gray-bracketed
timestamp (when showTimestamp), the severity-colored prefix (when the
prefix is non-empty, JavaScript string truthiness), the severity-colored
upper-cased level tag, and the formatted message, joins them with single
spaces and writes the line with the console method selected by the
switch.  A serialization throw inside formatArgs propagates before any
output. -/
def log (st : Logger) (heap : Heap) (fuel : Nat) (now : String)
    (level : String) (args : List JSVal) : Except Unit (Option (Dest × String)) :=
  if shouldLog st level = false then Except.ok none
  else
    match formatArgs heap fuel args with
    | Except.error e => Except.error e
    | Except.ok msg =>
      let color := LEVEL_COLORS level
      let parts1 : List String := if st.showIcons then [ICONS level] else []
      let parts2 : List String :=
        if st.showTimestamp then
          parts1 ++ [COLORS_gray ++ "[" ++ now ++ "]" ++ COLORS_reset]
        else parts1
      let parts3 : List String :=
        if st.prefix_ = "" then parts2
        else parts2 ++ [color ++ st.prefix_ ++ COLORS_reset]
      let parts4 : List String :=
        parts3 ++ [color ++ "[" ++ toUpperCase level ++ "]" ++ COLORS_reset]
      let parts5 : List String := parts4 ++ [msg]
      Except.ok (some (destOf level, String.intercalate " " parts5))

/-- One emit method call in state-passing form: the method body is
`log(level, args)`, which reads but never writes the instance state. -/
def emitOp (st : Logger) (heap : Heap) (fuel : Nat) (now : String)
    (level : String) (args : List JSVal) :
    (Except Unit (Option (Dest × String))) × Logger :=
  (log st heap fuel now level args, st)

/-- The debug method of the logger record. -/
def Logger.debug (st : Logger) (heap : Heap) (fuel : Nat) (now : String)
    (args : List JSVal) : (Except Unit (Option (Dest × String))) × Logger :=
  emitOp st heap fuel now "debug" args

/-- The info method of the logger record. -/
def Logger.info (st : Logger) (heap : Heap) (fuel : Nat) (now : String)
    (args : List JSVal) : (Except Unit (Option (Dest × String))) × Logger :=
  emitOp st heap fuel now "info" args

/-- The warn method of the logger record. -/
def Logger.warn (st : Logger) (heap : Heap) (fuel : Nat) (now : String)
    (args : List JSVal) : (Except Unit (Option (Dest × String))) × Logger :=
  emitOp st heap fuel now "warn" args

/-- The error method of the logger record. -/
def Logger.error (st : Logger) (heap : Heap) (fuel : Nat) (now : String)
    (args : List JSVal) : (Except Unit (Option (Dest × String))) × Logger :=
  emitOp st heap fuel now "error" args

/-- The success method of the logger record. -/
def Logger.success (st : Logger) (heap : Heap) (fuel : Nat) (now : String)
    (args : List JSVal) : (Except Unit (Option (Dest × String))) × Logger :=
  emitOp st heap fuel now "success" args

/-- The object literal the create method passes to createLogger before
spreading the overrides: the instance's current prefix, timestamp flag,
current level and icon flag, every field present. -/
def currentOpts (st : Logger) : LoggerOptions :=
  { prefix_ := some st.prefix_
  , timestamp := some st.showTimestamp
  , level := some st.currentLevel
  , icons := some st.showIcons }

/-- The object spread `... newOptions` over the parent's snapshot: a field
present in the overrides wins, a missing field keeps the parent's value. -/
def spreadOpts (base over : LoggerOptions) : LoggerOptions :=
  { prefix_ := match over.prefix_ with | some x => some x | none => base.prefix_
  , timestamp := match over.timestamp with | some x => some x | none => base.timestamp
  , level := match over.level with | some x => some x | none => base.level
  , icons := match over.icons with | some x => some x | none => base.icons }

/-- The create method of the logger record, in state-passing form: builds
a fully independent child from the parent's current configuration with
overrides applied; omitting the options argument equals spreading an
empty record. -/
def Logger.create (st : Logger) (newOptions : Option LoggerOptions) :
    Logger × Logger :=
  (createLogger (spreadOpts (currentOpts st)
      (match newOptions with | some o => o | none => {})), st)

/-- The setLevel method in state-passing form.  The guard is the
JavaScript test `level in LEVELS` (prototype chain included); when it
fails a TypeError is thrown whose message names the rejected value and
joins Object.keys(LEVELS) with commas, and the state is returned
unchanged, the assignment never having run; when it passes,
currentLevel is assigned. -/
def Logger.setLevel (st : Logger) (level : String) :
    (Except String Unit) × Logger :=
  if inLEVELS level = false then
    ((Except.error ("Invalid log level: \"" ++ level ++ "\". Valid levels: "
        ++ String.intercalate ", " levelNames)), st)
  else ((Except.ok ()), { st with currentLevel := level })

/-- The getLevel method in state-passing form: a pure accessor. -/
def Logger.getLevel (st : Logger) : String × Logger :=
  (st.currentLevel, st)


/-- A heap whose object 0 holds a reference to itself. -/
def circHeap : Heap := [(0, ObjBody.obj [("a", JSVal.ref 0)])]

/-- A heap where object 0 references object 1 twice (a shared,
non-cyclic reference). -/
def shareHeap : Heap :=
  [(1, ObjBody.obj [("x", JSVal.num 1)]),
   (0, ObjBody.obj [("a", JSVal.ref 1), ("b", JSVal.ref 1)])]

/-- The logger of the spec example: prefix "[MyApp]", timestamp off,
icons on, threshold debug. -/
def stMyApp : Logger :=
  createLogger { prefix_ := some "[MyApp]", timestamp := some false,
                 level := some "debug", icons := some true }

/-! Helper lemmas shared by the claim theorems. -/

/-- Each of the five level names has a priority in the table. -/
theorem priority_of_mem (l : String) (h : l ∈ levelNames) :
    ∃ p, levelPriority l = some p := by
  simp [levelNames, LEVELS] at h
  rcases h with h | h | h | h | h <;> subst h <;> exact ⟨_, rfl⟩

/-- A string outside the five level names has no priority: the property
access yields undefined. -/
theorem levelPriority_eq_none (l : String) (h : l ∉ levelNames) :
    levelPriority l = none := by
  simp [levelNames, LEVELS] at h
  obtain ⟨h1, h2, h3, h4, h5⟩ := h
  have e1 : (l == "debug") = false := beq_eq_false_iff_ne.mpr h1
  have e2 : (l == "info") = false := beq_eq_false_iff_ne.mpr h2
  have e3 : (l == "warn") = false := beq_eq_false_iff_ne.mpr h3
  have e4 : (l == "error") = false := beq_eq_false_iff_ne.mpr h4
  have e5 : (l == "success") = false := beq_eq_false_iff_ne.mpr h5
  simp [levelPriority, LEVELS, List.lookup, e1, e2, e3, e4, e5]

/-- shouldLog computes the numeric comparison when both priorities exist. -/
theorem shouldLog_eq_decide (st : Logger) (S : String) (pS pT : Nat)
    (hS : levelPriority S = some pS)
    (hT : levelPriority st.currentLevel = some pT) :
    shouldLog st S = decide (pS ≥ pT) := by
  simp [shouldLog, hS, hT]

/-- A filtered-out call returns before rendering, with no output. -/
theorem log_below (st : Logger) (heap : Heap) (fuel : Nat) (now level : String)
    (args : List JSVal) (h : shouldLog st level = false) :
    log st heap fuel now level args = Except.ok none := by
  simp [log, h]

/-- An accepted call whose arguments serialize produces one line routed by
the output switch. -/
theorem log_above (st : Logger) (heap : Heap) (fuel : Nat) (now level : String)
    (args : List JSVal) (msg : String) (h : shouldLog st level = true)
    (hm : formatArgs heap fuel args = Except.ok msg) :
    ∃ line, log st heap fuel now level args =
      Except.ok (some (destOf level, line)) := by
  simp [log, h, hm]

/-- Any produced line is written with the console method the switch picks
for the level. -/
theorem log_dest_eq (st : Logger) (heap : Heap) (fuel : Nat) (now level : String)
    (args : List JSVal) (d : Dest) (line : String)
    (h : log st heap fuel now level args = Except.ok (some (d, line))) :
    d = destOf level := by
  by_cases hsl : shouldLog st level = false
  · simp [log, hsl] at h
  · cases hfa : formatArgs heap fuel args with
    | error e => simp [log, hsl, hfa] at h
    | ok msg =>
      simp [log, hsl, hfa] at h
      exact h.1.symm

/-! Claim C1.  The priority filter.  As literally stated the claim fails
on the code: an above-threshold emit call whose arguments hit the
unguarded Error/Map/Set serialization path (see C3) throws and produces
no output even though priority(S) >= priority(T).  The amended statement
adds the proviso that the arguments serialize successfully; the no-op
direction for priority(S) < priority(T) holds for all arguments. -/

/-- C1 counterexample: info has priority 1, the default threshold debug
has priority 0, yet this emit call produces no output (it throws),
refuting the unconditional "output iff priority(S) >= priority(T)". -/
theorem C1_counterexample :
    levelPriority "info" = some 1 ∧ levelPriority "debug" = some 0 ∧
    defaultLogger.currentLevel = "debug" ∧
    (emitOp defaultLogger [] 9 "t" "info"
        [JSVal.err "Error" "boom" none [("big", JSVal.bigint 10)]]).1 =
      Except.error () :=
  ⟨rfl, rfl, rfl, rfl⟩

/-- C1 amended: for severities S and thresholds T among the five names,
an emit call at S on a logger whose threshold is T produces output iff
priority(S) >= priority(T) — provided the arguments serialize without a
throw — and when priority(S) < priority(T) the call is a no-op with no
output and an unchanged state for every argument list whatsoever. -/
theorem C1_emit_filter_amended (S T : String) (st : Logger) (heap : Heap)
    (fuel : Nat) (now : String) (args : List JSVal) (msg : String)
    (hS : S ∈ levelNames) (hT : T ∈ levelNames) (hcur : st.currentLevel = T)
    (hser : formatArgs heap fuel args = Except.ok msg) :
    ∃ pS pT, levelPriority S = some pS ∧ levelPriority T = some pT ∧
      ((∃ out, emitOp st heap fuel now S args = (Except.ok (some out), st)) ↔
        pS ≥ pT) ∧
      (pS < pT → ∀ anyArgs : List JSVal,
        emitOp st heap fuel now S anyArgs = (Except.ok none, st)) := by
  obtain ⟨pS, hpS⟩ := priority_of_mem S hS
  obtain ⟨pT, hpT⟩ := priority_of_mem T hT
  have hT' : levelPriority st.currentLevel = some pT := by rw [hcur]; exact hpT
  have hsl := shouldLog_eq_decide st S pS pT hpS hT'
  refine ⟨pS, pT, hpS, hpT, ?_, ?_⟩
  · constructor
    · rintro ⟨out, hout⟩
      by_contra hge
      have hfalse : shouldLog st S = false := by
        rw [hsl]; simpa using hge
      have := log_below st heap fuel now S args hfalse
      rw [emitOp] at hout
      rw [this] at hout
      simp at hout
    · intro hge
      have htrue : shouldLog st S = true := by
        rw [hsl]; simpa using hge
      obtain ⟨line, hl⟩ := log_above st heap fuel now S args msg htrue hser
      exact ⟨(destOf S, line), by simp [emitOp, hl]⟩
  · intro hlt anyArgs
    have hfalse : shouldLog st S = false := by
      rw [hsl]; simp; omega
    simp [emitOp, log_below st heap fuel now S anyArgs hfalse]

/-- C1 witness: the amended theorem applied at severity error against
threshold warn with an empty argument list. -/
theorem C1_witness :
    ∃ pS pT, levelPriority "error" = some pS ∧ levelPriority "warn" = some pT ∧
      ((∃ out, emitOp (createLogger { level := some "warn" }) [] 1 "t" "error" [] =
          (Except.ok (some out), createLogger { level := some "warn" })) ↔
        pS ≥ pT) ∧
      (pS < pT → ∀ anyArgs : List JSVal,
        emitOp (createLogger { level := some "warn" }) [] 1 "t" "error" anyArgs =
          (Except.ok none, createLogger { level := some "warn" })) :=
  C1_emit_filter_amended "error" "warn" (createLogger { level := some "warn" })
    [] 1 "t" [] "" (by decide) (by decide) rfl rfl

/-! Claim C2.  setLevel validation.  The guard is the JavaScript `in`
operator, which consults the prototype chain: a name inherited from
Object.prototype (such as "toString") passes the guard, is stored
verbatim without any error, and silently disables all output (its
priority lookup misses).  The claim's "any other value throws" is
therefore false as stated. -/

/-- C2 counterexample: "toString" is not one of the five valid names,
yet setLevel accepts it without throwing and changes the threshold,
which a following getLevel reports. -/
theorem C2_counterexample :
    "toString" ∉ levelNames ∧
    Logger.setLevel defaultLogger "toString" =
      (Except.ok (),
        { currentLevel := "toString", prefix_ := "",
          showTimestamp := false, showIcons := true }) ∧
    (Logger.getLevel (Logger.setLevel defaultLogger "toString").2).1 =
      "toString" ∧
    (Logger.getLevel defaultLogger).1 = "debug" :=
  ⟨by decide, rfl, rfl, rfl⟩

/-- C2 amended: setLevel with one of the five valid names updates the
threshold so that getLevel returns exactly that name; with any other
value that is also not a property name inherited from Object.prototype
it throws a TypeError whose message names the rejected value and
enumerates the five valid names, leaving the threshold unchanged; with
an inherited property name (toString, valueOf, hasOwnProperty, ...) it
does not throw and stores the value verbatim. -/
theorem C2_setLevel_amended (st : Logger) (name : String) :
    (name ∈ levelNames →
      Logger.setLevel st name = (Except.ok (), { st with currentLevel := name }) ∧
      (Logger.getLevel (Logger.setLevel st name).2).1 = name) ∧
    (name ∉ levelNames → name ∉ objectProtoKeys →
      Logger.setLevel st name =
        ((Except.error ("Invalid log level: \"" ++ name
            ++ "\". Valid levels: " ++ "debug, info, warn, error, success")), st) ∧
      (Logger.getLevel (Logger.setLevel st name).2).1 =
        (Logger.getLevel st).1) ∧
    (name ∉ levelNames → name ∈ objectProtoKeys →
      Logger.setLevel st name =
        (Except.ok (), { st with currentLevel := name })) := by
  refine ⟨?_, ?_, ?_⟩
  · intro h
    have hc : levelNames.contains name = true := by simpa using h
    have hin : inLEVELS name = true := by rw [inLEVELS, hc]; rfl
    rw [Logger.setLevel, hin]
    exact ⟨rfl, rfl⟩
  · intro h1 h2
    have hc1 : levelNames.contains name = false := by
      cases hx : levelNames.contains name with
      | false => rfl
      | true => exact absurd (by simpa using hx) h1
    have hc2 : objectProtoKeys.contains name = false := by
      cases hx : objectProtoKeys.contains name with
      | false => rfl
      | true => exact absurd (by simpa using hx) h2
    have hin : inLEVELS name = false := by rw [inLEVELS, hc1, hc2]; rfl
    rw [Logger.setLevel, hin]
    exact ⟨rfl, rfl⟩
  · intro h1 h2
    have hc2 : objectProtoKeys.contains name = true := by simpa using h2
    have hin : inLEVELS name = true := by
      rw [inLEVELS, hc2]
      cases levelNames.contains name <;> rfl
    rw [Logger.setLevel, hin]
    rfl

/-- C2 witness: the amended theorem applied at a valid name, an invalid
non-inherited name and an inherited name. -/
theorem C2_witness :
    (Logger.setLevel defaultLogger "warn" =
        (Except.ok (), { defaultLogger with currentLevel := "warn" }) ∧
      (Logger.getLevel (Logger.setLevel defaultLogger "warn").2).1 = "warn") ∧
    (Logger.setLevel defaultLogger "bogus" =
        ((Except.error ("Invalid log level: \"" ++ "bogus"
            ++ "\". Valid levels: " ++ "debug, info, warn, error, success")),
          defaultLogger) ∧
      (Logger.getLevel (Logger.setLevel defaultLogger "bogus").2).1 =
        (Logger.getLevel defaultLogger).1) ∧
    Logger.setLevel defaultLogger "valueOf" =
      (Except.ok (), { defaultLogger with currentLevel := "valueOf" }) :=
  ⟨(C2_setLevel_amended defaultLogger "warn").1 (by decide),
   (C2_setLevel_amended defaultLogger "bogus").2.1 (by decide) (by decide),
   (C2_setLevel_amended defaultLogger "valueOf").2.2 (by decide) (by decide)⟩

/-! Claim C3.  The serialization fallback.  The claim matches the spec
and the function's own "Safely stringify" doc comment, but the code's
Error, Map and Set branches run JSON.stringify before — outside — the
try/catch, so an Error carrying, for example, a BigInt custom property
makes the emit call itself throw. -/

/-- C3 failing input, evaluated: serializing an Error with a BigInt
custom property throws (the Error branch is outside the try/catch), so
an above-threshold info call on it throws instead of falling back; the
fallback does work on the generic-object path, as the exotic-value case
shows. -/
theorem C3_error_branch_throws :
    safeStringify [] 9 (JSVal.err "Error" "boom" none [("big", JSVal.bigint 10)]) =
      Except.error () ∧
    (Logger.info defaultLogger [] 9 "t"
        [JSVal.err "Error" "boom" none [("big", JSVal.bigint 10)]]).1 =
      Except.error () ∧
    safeStringify [] 9 (JSVal.exotic "Symbol(sym)") = Except.ok "Symbol(sym)" ∧
    (Logger.info defaultLogger [] 9 "t" [JSVal.exotic "Symbol(sym)"]).1 =
      Except.ok (some (Dest.consoleLog,
        "ℹ️ " ++ COLORS_cyan ++ "[INFO]" ++ COLORS_reset ++ " Symbol(sym)")) :=
  ⟨rfl, rfl, rfl, rfl⟩

/-! Claim C4.  Stream routing by severity. -/

/-- C4: every line an emit operation produces is routed by its severity:
error lines go to the console.error method (standard error stream), warn
lines to console.warn (an error-class stream distinct from console.log's
standard output), and debug, info and success lines to console.log
(standard output) — in particular success, although it shares priority 3
with error, writes to standard output. -/
theorem C4_stream_routing (st : Logger) (heap : Heap) (fuel : Nat)
    (now : String) (args : List JSVal) (d : Dest) (line : String) :
    ((Logger.error st heap fuel now args).1 = Except.ok (some (d, line)) →
      d = Dest.consoleError ∧ destStream d = StdStream.err) ∧
    ((Logger.warn st heap fuel now args).1 = Except.ok (some (d, line)) →
      d = Dest.consoleWarn ∧ d ≠ Dest.consoleLog ∧
        destStream d = StdStream.err) ∧
    ((Logger.debug st heap fuel now args).1 = Except.ok (some (d, line)) →
      d = Dest.consoleLog ∧ destStream d = StdStream.out) ∧
    ((Logger.info st heap fuel now args).1 = Except.ok (some (d, line)) →
      d = Dest.consoleLog ∧ destStream d = StdStream.out) ∧
    ((Logger.success st heap fuel now args).1 = Except.ok (some (d, line)) →
      d = Dest.consoleLog ∧ destStream d = StdStream.out) ∧
    levelPriority "success" = levelPriority "error" := by
  refine ⟨?_, ?_, ?_, ?_, ?_, rfl⟩ <;> intro h <;>
    have hd := log_dest_eq st heap fuel now _ args d line h <;> subst hd <;>
    simp [destOf, destStream]

/-- C4 witness: a concrete error emit at the default threshold produces a
line and it is routed to console.error, hence the standard error stream. -/
theorem C4_witness :
    Dest.consoleError = Dest.consoleError ∧
    destStream Dest.consoleError = StdStream.err :=
  (C4_stream_routing defaultLogger [] 1 "t" [] Dest.consoleError
    ("❌ " ++ COLORS_red ++ "[ERROR]" ++ COLORS_reset ++ " ")).1 rfl

/-! Claim C5.  Child creation.  The create method snapshots the parent's
current configuration (including a threshold changed by an earlier
setLevel) and applies the overrides on top; the child is a fresh state
value, so later mutation of either instance cannot reach the other. -/

/-- C5: a child created with no overrides reproduces the parent's four
configuration fields exactly; a child created with overrides takes each
overridden field from the overrides and every other field from the
parent; a child created after a valid setLevel on the parent carries the
parent's new current threshold. -/
theorem C5_create_inherits (st : Logger) (o : LoggerOptions) :
    (Logger.create st none).1 = st ∧
    ((Logger.create st (some o)).1.currentLevel = o.level.getD st.currentLevel ∧
      (Logger.create st (some o)).1.prefix_ = o.prefix_.getD st.prefix_ ∧
      (Logger.create st (some o)).1.showTimestamp =
        o.timestamp.getD st.showTimestamp ∧
      (Logger.create st (some o)).1.showIcons = o.icons.getD st.showIcons) ∧
    (∀ l, l ∈ levelNames →
      (Logger.create ((Logger.setLevel st l).2) none).1.currentLevel = l ∧
      (Logger.create ((Logger.setLevel st l).2) none).1.prefix_ = st.prefix_) ∧
    (Logger.create st (some o)).2 = st := by
  refine ⟨rfl, ?_, ?_, rfl⟩
  · obtain ⟨p, t, l, i⟩ := o
    refine ⟨?_, ?_, ?_, ?_⟩ <;>
      cases p <;> cases t <;> cases l <;> cases i <;> rfl
  · intro l hl
    have hc : levelNames.contains l = true := by simpa using hl
    have hin : inLEVELS l = true := by rw [inLEVELS, hc]; rfl
    rw [Logger.setLevel, hin]
    exact ⟨rfl, rfl⟩

/-- C5 witness: the inheritance theorem applied concretely — a child of
a parent mutated by setLevel sees the new threshold while keeping the
parent's prefix. -/
theorem C5_witness :
    (Logger.create ((Logger.setLevel stMyApp "error").2) none).1.currentLevel =
      "error" ∧
    (Logger.create ((Logger.setLevel stMyApp "error").2) none).1.prefix_ =
      stMyApp.prefix_ :=
  (C5_create_inherits stMyApp {}).2.2.1 "error" (by decide)

/-! Claim C6.  The circular-reference guard. -/

/-- C6: whenever serialization reaches a reference to an object already
in the tracking set, it emits the literal "[Circular]" marker in its
place (as a JSON string) without recursing into it, without an error,
and without growing the set; a self-referential object therefore
serializes successfully with the marker embedded.  The tracking set is
created afresh inside safeStringify for each argument: serializing the
same object as two separate arguments of one emit call yields no marker,
while two references inside one argument do trip the guard. -/
theorem C6_circular_guard :
    (∀ (heap : Heap) (fuel : Nat) (seen stack : List Nat) (depth id : Nat),
      seen.contains id = true →
      serVal heap (fuel + 1) true seen stack depth (JSVal.ref id) =
        ((Except.ok (some (jsonQuote "[Circular]"))), seen)) ∧
    safeStringify circHeap 9 (JSVal.ref 0) =
      Except.ok "\x7b\n  \"a\": \"[Circular]\"\n\x7d" ∧
    formatArgs shareHeap 16 [JSVal.ref 0] =
      Except.ok "\x7b\n  \"a\": \x7b\n    \"x\": 1\n  \x7d,\n  \"b\": \"[Circular]\"\n\x7d" ∧
    formatArgs shareHeap 16 [JSVal.ref 1, JSVal.ref 1] =
      Except.ok "\x7b\n  \"x\": 1\n\x7d \x7b\n  \"x\": 1\n\x7d" := by
  refine ⟨?_, rfl, rfl, rfl⟩
  intro heap fuel seen stack depth id h
  have hm : id ∈ seen := by simpa using h
  simp [serVal, hm]

/-- C6 witness: the guard applied at a concrete already-visited
reference. -/
theorem C6_witness :
    serVal [] 3 true [7] [] 0 (JSVal.ref 7) =
      ((Except.ok (some (jsonQuote "[Circular]"))), [7]) :=
  C6_circular_guard.1 [] 2 [7] [] 0 7 (by decide)

/-! Claim C7.  The rendered line layout. -/

/-- C7: every produced line is the space-join of, in order, the icon
segment (present iff showIcons), the gray-bracketed timestamp segment
(present iff showTimestamp), the severity-colored prefix segment
(present iff the prefix is non-empty), the always-present
severity-colored upper-cased bracketed level tag, and the message — the
arguments converted to text and joined by single spaces; the spec
example (prefix "[MyApp]", no timestamp, icons on, threshold debug,
info('x')) yields exactly one line containing, in order, the info icon,
the colored "[MyApp]", the tag "[INFO]" and the literal "x". -/
theorem C7_render_layout (st : Logger) (heap : Heap) (fuel : Nat)
    (now level : String) (args : List JSVal) (d : Dest) (line msg : String)
    (h : log st heap fuel now level args = Except.ok (some (d, line)))
    (hm : formatArgs heap fuel args = Except.ok msg) :
    line = String.intercalate " "
      ((if st.showIcons then [ICONS level] else []) ++
       (if st.showTimestamp then
         [COLORS_gray ++ "[" ++ now ++ "]" ++ COLORS_reset] else []) ++
       (if st.prefix_ ≠ "" then
         [LEVEL_COLORS level ++ st.prefix_ ++ COLORS_reset] else []) ++
       [LEVEL_COLORS level ++ "[" ++ toUpperCase level ++ "]" ++ COLORS_reset] ++
       [msg]) ∧
    (Logger.info stMyApp [] 9 "t" [JSVal.str "x"]).1 =
      Except.ok (some (Dest.consoleLog,
        "ℹ️ " ++ COLORS_cyan ++ "[MyApp]" ++ COLORS_reset ++ " "
          ++ COLORS_cyan ++ "[INFO]" ++ COLORS_reset ++ " x")) ∧
    (∃ a b c d2 e : String,
      "ℹ️ " ++ COLORS_cyan ++ "[MyApp]" ++ COLORS_reset ++ " "
          ++ COLORS_cyan ++ "[INFO]" ++ COLORS_reset ++ " x" =
        a ++ "ℹ️" ++ b ++ "[MyApp]" ++ c ++ "[INFO]" ++ d2 ++ "x" ++ e) := by
  refine ⟨?_, rfl,
    ⟨"", " " ++ COLORS_cyan, COLORS_reset ++ " " ++ COLORS_cyan,
      COLORS_reset ++ " ", "", by rfl⟩⟩
  by_cases hsl : shouldLog st level = false
  · rw [log_below st heap fuel now level args hsl] at h
    cases h
  · by_cases h1 : st.showIcons <;> by_cases h2 : st.showTimestamp <;>
      by_cases h3 : st.prefix_ = "" <;>
      simp [log, hsl, hm, h1, h2, h3] at h <;>
      simp [h1, h2, h3, h.2]

/-- C7 witness: the layout theorem applied to the spec example call. -/
theorem C7_witness :
    "ℹ️ " ++ COLORS_cyan ++ "[MyApp]" ++ COLORS_reset ++ " "
        ++ COLORS_cyan ++ "[INFO]" ++ COLORS_reset ++ " x" =
      String.intercalate " "
        ((if stMyApp.showIcons then [ICONS "info"] else []) ++
         (if stMyApp.showTimestamp then
           [COLORS_gray ++ "[" ++ "t" ++ "]" ++ COLORS_reset] else []) ++
         (if stMyApp.prefix_ ≠ "" then
           [LEVEL_COLORS "info" ++ stMyApp.prefix_ ++ COLORS_reset] else []) ++
         [LEVEL_COLORS "info" ++ "[" ++ toUpperCase "info" ++ "]"
           ++ COLORS_reset] ++
         ["x"]) :=
  (C7_render_layout stMyApp [] 9 "t" "info" [JSVal.str "x"] Dest.consoleLog
    ("ℹ️ " ++ COLORS_cyan ++ "[MyApp]" ++ COLORS_reset ++ " "
      ++ COLORS_cyan ++ "[INFO]" ++ COLORS_reset ++ " x") "x" rfl rfl).1

/-! Claim C8.  BigInt rendering. -/

/-- C8: a top-level BigInt argument always renders as its decimal digits
followed by the "n" marker, and emitting the BigInt 123 produces a line
containing the substring "123n". -/
theorem C8_bigint_rendering :
    (∀ (heap : Heap) (fuel : Nat) (n : Int),
      safeStringify heap fuel (JSVal.bigint n) = Except.ok (toString n ++ "n")) ∧
    (∃ a b : String,
      (Logger.info defaultLogger [] 9 "t" [JSVal.bigint 123]).1 =
        Except.ok (some (Dest.consoleLog, a ++ "123n" ++ b))) :=
  ⟨fun _ _ _ => rfl,
   ⟨"ℹ️ " ++ COLORS_cyan ++ "[INFO]" ++ COLORS_reset ++ " ", "", rfl⟩⟩

/-! Claim C9.  Behavior under an unrecognized stored threshold. -/

/-- C9: construction stores any supplied level verbatim (no validation);
while the stored threshold is outside the five recognized names, every
emit call at every severity is a no-op with no output and an unchanged
state (the priority comparison against the unrecognized value is false),
getLevel returns the stored value verbatim, and a setLevel call with a
valid name still succeeds and replaces it. -/
theorem C9_invalid_threshold (st : Logger) (h : st.currentLevel ∉ levelNames) :
    (∀ level, shouldLog st level = false) ∧
    (∀ (heap : Heap) (fuel : Nat) (now level : String) (args : List JSVal),
      emitOp st heap fuel now level args = (Except.ok none, st)) ∧
    (Logger.getLevel st).1 = st.currentLevel ∧
    (∀ (opts : LoggerOptions) (s : String), opts.level = some s →
      (createLogger opts).currentLevel = s) ∧
    (∀ name, name ∈ levelNames →
      (Logger.setLevel st name).1 = Except.ok () ∧
      (Logger.setLevel st name).2.currentLevel = name) := by
  have hn : levelPriority st.currentLevel = none := levelPriority_eq_none _ h
  have hsl : ∀ level, shouldLog st level = false := by
    intro level
    cases hx : levelPriority level <;> simp [shouldLog, hn, hx]
  refine ⟨hsl, ?_, rfl, ?_, ?_⟩
  · intro heap fuel now level args
    simp [emitOp, log_below st heap fuel now level args (hsl level)]
  · intro opts s hls
    simp [createLogger, hls]
  · intro name hmem
    have hc : levelNames.contains name = true := by simpa using hmem
    have hin : inLEVELS name = true := by rw [inLEVELS, hc]; rfl
    rw [Logger.setLevel, hin]
    exact ⟨rfl, rfl⟩

/-- C9 witness: a logger constructed with the unrecognized level
"verbose" keeps it verbatim, filters everything out, and accepts a later
valid setLevel. -/
theorem C9_witness :
    shouldLog (createLogger { level := some "verbose" }) "error" = false ∧
    emitOp (createLogger { level := some "verbose" }) [] 9 "t" "error"
        [JSVal.str "x"] =
      (Except.ok none, createLogger { level := some "verbose" }) ∧
    (Logger.getLevel (createLogger { level := some "verbose" })).1 =
      (createLogger { level := some "verbose" }).currentLevel ∧
    (Logger.setLevel (createLogger { level := some "verbose" }) "info").2.currentLevel =
      "info" :=
  ⟨(C9_invalid_threshold (createLogger { level := some "verbose" })
      (by decide)).1 "error",
   (C9_invalid_threshold (createLogger { level := some "verbose" })
      (by decide)).2.1 [] 9 "t" "error" [JSVal.str "x"],
   (C9_invalid_threshold (createLogger { level := some "verbose" })
      (by decide)).2.2.1,
   ((C9_invalid_threshold (createLogger { level := some "verbose" })
      (by decide)).2.2.2.2 "info" (by decide)).2⟩

/-! Claim C10.  The frame of every operation. -/

/-- C10: the five emit operations, getLevel and create leave the
instance state untouched; setLevel preserves the prefix, timestamp flag
and icon flag unconditionally, returns the state unchanged when its
guard rejects the name, and changes exactly the currentLevel field when
the guard accepts it. -/
theorem C10_frame (st : Logger) (heap : Heap) (fuel : Nat)
    (now level : String) (args : List JSVal) (o : Option LoggerOptions)
    (name : String) :
    (Logger.debug st heap fuel now args).2 = st ∧
    (Logger.info st heap fuel now args).2 = st ∧
    (Logger.warn st heap fuel now args).2 = st ∧
    (Logger.error st heap fuel now args).2 = st ∧
    (Logger.success st heap fuel now args).2 = st ∧
    (emitOp st heap fuel now level args).2 = st ∧
    (Logger.getLevel st).2 = st ∧
    (Logger.create st o).2 = st ∧
    (Logger.setLevel st name).2.prefix_ = st.prefix_ ∧
    (Logger.setLevel st name).2.showTimestamp = st.showTimestamp ∧
    (Logger.setLevel st name).2.showIcons = st.showIcons ∧
    (inLEVELS name = false → (Logger.setLevel st name).2 = st) ∧
    (inLEVELS name = true →
      (Logger.setLevel st name).2 = { st with currentLevel := name }) := by
  refine ⟨rfl, rfl, rfl, rfl, rfl, rfl, rfl, rfl, ?_, ?_, ?_, ?_, ?_⟩ <;>
    by_cases hin : inLEVELS name = false <;>
    simp [Logger.setLevel, hin]

/-- C10 witness: the frame theorem applied to a concrete state for both
setLevel branches. -/
theorem C10_witness :
    (Logger.setLevel stMyApp "bogus").2 = stMyApp ∧
    (Logger.setLevel stMyApp "warn").2 = { stMyApp with currentLevel := "warn" } ∧
    (Logger.info stMyApp [] 9 "t" [JSVal.str "x"]).2 = stMyApp := by
  have h1 := C10_frame stMyApp [] 9 "t" "info" [JSVal.str "x"] none "bogus"
  have h2 := C10_frame stMyApp [] 9 "t" "info" [JSVal.str "x"] none "warn"
  exact ⟨h1.2.2.2.2.2.2.2.2.2.2.2.1 (by decide),
    h2.2.2.2.2.2.2.2.2.2.2.2.2 (by decide), h1.2.1⟩

end Minilog
